import Mathlib

/-!
# go-beachhead: TCP ping/echo responder and UDP beacon emitter

A shallow embedding of `examples/docker/go-beachhead/cmd/beachhead/main.go`.

* Go strings and byte slices are sequences of bytes: `GoString = List UInt8`.
* Network and operating-system calls are scripted: every call that can fail
  takes its outcome from an explicit argument (a list of read results, a
  function giving the outcome of the i-th write, an environment lookup, ...),
  and the observable behaviour of a routine is the list of events it emits.
* Standard-library routines used by `main.go` (`strings.HasPrefix`,
  `net/url.Parse`, `encoding/json.Marshal`, `utf8.DecodeRuneInString`) are
  transcribed from the Go standard library (go1.22); they are not part of
  the repository.
-/

namespace Beachhead

/-! ## Byte strings -/

/-- A Go `string` / `[]byte`: a finite sequence of bytes. -/
abbrev GoString := List UInt8

/-- The bytes of an ASCII string literal of the source. -/
def str (s : String) : GoString := s.toList.map (fun c => c.toNat.toUInt8)

/-- Go `strings.HasPrefix(s, prefix)`:
`len(s) >= len(prefix) && s[:len(prefix)] == prefix`. -/
def HasPrefix (s pfx : GoString) : Bool :=
  decide (s.length ≥ pfx.length) && s.take pfx.length == pfx

/-! ## The connection handler of `runTCP` -/

/-- Outcome of one `conn.Read(buf)`: `ok bytes` is a return with `err == nil`
that delivered `bytes`; `err` is a return with `err != nil` (end of stream
included). -/
inductive ReadResult where
  | ok (bytes : GoString)
  | err
  deriving DecidableEq, Repr

/-- What a connection handler does to its connection, in program order.
`write data ok` is a call `conn.Write(data)`; `ok` tells whether it succeeded. -/
inductive ConnEvent where
  | read (r : ReadResult)
  | write (data : GoString) (ok : Bool)
  | close
  deriving DecidableEq, Repr

/-- Where a routine stands when its script of outcomes is used up. -/
inductive Status where
  | returned
  | blocked
  deriving DecidableEq, Repr

/-- The events of a run and how it ended. -/
structure ConnRun where
  trace : List ConnEvent
  status : Status
  deriving DecidableEq, Repr

/-- Buffer of the handler, `buf := make([]byte, 4096)`. -/
def makeBuf : List UInt8 := List.replicate 4096 0

/-- A successful `conn.Read(buf)`: the delivered bytes are copied to the front
of `buf`, never more than `len(buf)` of them; returns `n` and the new buffer. -/
def connRead (buf : List UInt8) (bytes : GoString) : Nat × List UInt8 :=
  let n := min bytes.length buf.length
  (n, bytes.take n ++ buf.drop n)

/-- The `for` loop of the handler (lines 56-66). `wr i` is the outcome of the
`i`-th `conn.Write` on this connection; the handler discards it. The script of
read results is consumed in order; when it is used up the handler is blocked in
`conn.Read`. On a read error the deferred `conn.Close()` runs. -/
def connLoop (wr : Nat → Bool) : List UInt8 → Nat → List ReadResult → ConnRun
  | _, _, [] => ⟨[], Status.blocked⟩
  | _, _, ReadResult.err :: _ => ⟨[ConnEvent.read ReadResult.err, ConnEvent.close], Status.returned⟩
  | buf, i, ReadResult.ok bytes :: rs =>
    let r := connRead buf bytes
    let data := r.2.take r.1
    let out := if HasPrefix data (str "PING") then str "PONG\n" else data
    let rest := connLoop wr r.2 (i + 1) rs
    ⟨ConnEvent.read (ReadResult.ok bytes) :: ConnEvent.write out (wr i) :: rest.trace, rest.status⟩

/-- The handler goroutine `func(conn net.Conn)` started for each accepted
connection (lines 53-67). -/
def connHandler (wr : Nat → Bool) (reads : List ReadResult) : ConnRun :=
  connLoop wr makeBuf 0 reads

/-- The data of every `conn.Write` of a trace, concatenated in order. -/
def written : List ConnEvent → GoString
  | [] => []
  | ConnEvent.write data _ :: es => data ++ written es
  | _ :: es => written es

/-- The number of `conn.Write` calls of a trace. -/
def writeCount : List ConnEvent → Nat
  | [] => 0
  | ConnEvent.write _ _ :: es => writeCount es + 1
  | _ :: es => writeCount es

/-- The response the protocol description asks for, in the words of the
specification: `PONG\n` for a chunk whose first four bytes are `P`, `I`, `N`,
`G`, the chunk itself otherwise. -/
def specResponse (chunk : GoString) : GoString :=
  if chunk.take 4 = [0x50, 0x49, 0x4E, 0x47] then [0x50, 0x4F, 0x4E, 0x47, 0x0A] else chunk

/-- The trace the specification describes for chunks `c_i, c_(i+1), ...`
numbered from `i`: each read followed by the write of its response. -/
def specExchange (wr : Nat → Bool) : Nat → List GoString → List ConnEvent
  | _, [] => []
  | i, c :: cs =>
    ConnEvent.read (ReadResult.ok c) :: ConnEvent.write (specResponse c) (wr i)
      :: specExchange wr (i + 1) cs

/-! ## Configuration: `getenv` and `hostname` -/

/-- The process environment: the value of a variable, `none` when it is unset. -/
abbrev Env := GoString → Option GoString

/-- Go `os.Getenv(k)`: the value of the variable, empty when it is not present. -/
def osGetenv (env : Env) (k : GoString) : GoString :=
  match env k with
  | some v => v
  | none => []

/-- Source `getenv(k, d)` (lines 90-94). -/
def getenv (env : Env) (k d : GoString) : GoString :=
  let v := osGetenv env k
  if v = [] then d else v

/-- Source `hostname()` (lines 96-100); `osHostname` is the outcome of
`os.Hostname()`, `none` when it returned an error. -/
def hostname (osHostname : Option GoString) : GoString :=
  match osHostname with
  | none => str "go-beachhead"
  | some h => h

/-! ## `net/url.Parse` (Go standard library)

Only `Scheme` of the parsed URL is read by `main.go`, so the transcription
keeps the scheme and, for every other component, whether parsing it fails. -/

/-- A byte given by its ASCII character. -/
def ch (c : Char) : UInt8 := c.toNat.toUInt8

/-- Go `strings.Index(s, sep)`: position of the first occurrence, `none` for -1. -/
def Index : GoString → GoString → Option Nat
  | [], sep => if sep = [] then some 0 else none
  | c :: t, sep =>
    if HasPrefix (c :: t) sep then some 0
    else (Index t sep).map (fun i => i + 1)

/-- Go `strings.LastIndex(s, sep)`: position of the last occurrence, `none` for -1. -/
def LastIndex : GoString → GoString → Option Nat
  | [], sep => if sep = [] then some 0 else none
  | c :: t, sep =>
    match LastIndex t sep with
    | some i => some (i + 1)
    | none => if HasPrefix (c :: t) sep then some 0 else none

/-- Go `strings.Contains(s, substr)`. -/
def Contains (s substr : GoString) : Bool := (Index s substr).isSome

/-- Go `strings.Cut(s, sep)`: the text before and after the first `sep`;
`(s, "")` when `sep` does not occur. -/
def Cut (s sep : GoString) : GoString × GoString :=
  match Index s sep with
  | some i => (s.take i, s.drop (i + sep.length))
  | none => (s, [])

/-- Go `strings.HasSuffix(s, suffix)`. -/
def HasSuffix (s suffix : GoString) : Bool :=
  decide (s.length ≥ suffix.length) && s.drop (s.length - suffix.length) == suffix

/-- Go `strings.Count(s, substr)` for a one-byte `substr`. -/
def Count (s : GoString) (b : UInt8) : Nat := s.count b

/-- Go `strings.ToLower` on ASCII text (a URL scheme holds ASCII bytes only). -/
def ToLower (s : GoString) : GoString :=
  s.map (fun c => if ch 'A' ≤ c && c ≤ ch 'Z' then c + 32 else c)

/-- The URL a successful `url.Parse` returns; only `Scheme` is tracked. -/
structure URL where
  Scheme : GoString
  deriving DecidableEq, Repr

/-- The `encoding` modes of `net/url`. -/
inductive Encoding where
  | encodePath
  | encodePathSegment
  | encodeHost
  | encodeZone
  | encodeUserPassword
  | encodeQueryComponent
  | encodeFragment
  deriving DecidableEq, Repr

/-- Go `net/url.stringContainsCTLByte`. -/
def stringContainsCTLByte (s : GoString) : Bool :=
  s.any (fun b => b < 0x20 || b == 0x7f)

/-- Go `net/url.ishex`. -/
def ishex (c : UInt8) : Bool :=
  (ch '0' ≤ c && c ≤ ch '9') || (ch 'a' ≤ c && c ≤ ch 'f') || (ch 'A' ≤ c && c ≤ ch 'F')

/-- Go `net/url.unhex`. -/
def unhex (c : UInt8) : UInt8 :=
  if ch '0' ≤ c && c ≤ ch '9' then c - ch '0'
  else if ch 'a' ≤ c && c ≤ ch 'f' then c - ch 'a' + 10
  else if ch 'A' ≤ c && c ≤ ch 'F' then c - ch 'A' + 10
  else 0

/-- Go `net/url.shouldEscape(c, mode)`. Byte 0x27 is the apostrophe and 0x22
the double quote. -/
def shouldEscape (c : UInt8) (mode : Encoding) : Bool :=
  if (ch 'a' ≤ c && c ≤ ch 'z') || (ch 'A' ≤ c && c ≤ ch 'Z') || (ch '0' ≤ c && c ≤ ch '9') then
    false
  else if (mode = Encoding.encodeHost ∨ mode = Encoding.encodeZone) ∧
      c ∈ [ch '!', ch '$', ch '&', 0x27, ch '(', ch ')', ch '*', ch '+', ch ',', ch ';',
        ch '=', ch ':', ch '[', ch ']', ch '<', ch '>', 0x22] then
    false
  else if c ∈ [ch '-', ch '_', ch '.', ch '~'] then
    false
  else if c ∈ [ch '$', ch '&', ch '+', ch ',', ch '/', ch ':', ch ';', ch '=', ch '?', ch '@'] ∧
      mode = Encoding.encodePath then
    c == ch '?'
  else if c ∈ [ch '$', ch '&', ch '+', ch ',', ch '/', ch ':', ch ';', ch '=', ch '?', ch '@'] ∧
      mode = Encoding.encodePathSegment then
    c == ch '/' || c == ch ';' || c == ch ',' || c == ch '?'
  else if c ∈ [ch '$', ch '&', ch '+', ch ',', ch '/', ch ':', ch ';', ch '=', ch '?', ch '@'] ∧
      mode = Encoding.encodeUserPassword then
    c == ch '@' || c == ch '/' || c == ch '?' || c == ch ':'
  else if c ∈ [ch '$', ch '&', ch '+', ch ',', ch '/', ch ':', ch ';', ch '=', ch '?', ch '@'] ∧
      mode = Encoding.encodeQueryComponent then
    true
  else if c ∈ [ch '$', ch '&', ch '+', ch ',', ch '/', ch ':', ch ';', ch '=', ch '?', ch '@'] ∧
      mode = Encoding.encodeFragment then
    false
  else if mode = Encoding.encodeFragment ∧ c ∈ [ch '!', ch '(', ch ')', ch '*'] then
    false
  else
    true

/-- The validation pass of Go `net/url.unescape(s, mode)`: `true` when it
returns no error (well-formed `%` escapes, and in a host no ASCII byte that
would need escaping). The decoded text is not tracked. -/
def unescape (mode : Encoding) : GoString → Bool
  | [] => true
  | c :: rest =>
    if c = ch '%' then
      match rest with
      | h1 :: h2 :: rest2 =>
        if !ishex h1 || !ishex h2 then false
        else if mode = Encoding.encodeHost ∧ unhex h1 < 8 ∧ [c, h1, h2] ≠ str "%25" then false
        else if mode = Encoding.encodeZone ∧ [c, h1, h2] ≠ str "%25" ∧
            (unhex h1 <<< 4 ||| unhex h2) ≠ ch ' ' ∧
            shouldEscape (unhex h1 <<< 4 ||| unhex h2) Encoding.encodeHost = true then false
        else unescape mode rest2
      | _ => false
    else if c = ch '+' then unescape mode rest
    else if (mode = Encoding.encodeHost ∨ mode = Encoding.encodeZone) ∧ c < 0x80 ∧
        shouldEscape c Encoding.encodeHost = true then false
    else unescape mode rest

/-- Go `net/url.getScheme`, the loop from index `i` over the remaining bytes:
`none` is the error "missing protocol scheme", otherwise scheme and rest. -/
def getSchemeFrom (rawURL : GoString) : Nat → List UInt8 → Option (GoString × GoString)
  | _, [] => some ([], rawURL)
  | i, c :: cs =>
    if (ch 'a' ≤ c && c ≤ ch 'z') || (ch 'A' ≤ c && c ≤ ch 'Z') then
      getSchemeFrom rawURL (i + 1) cs
    else if (ch '0' ≤ c && c ≤ ch '9') || c == ch '+' || c == ch '-' || c == ch '.' then
      if i = 0 then some ([], rawURL) else getSchemeFrom rawURL (i + 1) cs
    else if c == ch ':' then
      if i = 0 then none else some (rawURL.take i, rawURL.drop (i + 1))
    else
      some ([], rawURL)

/-- Go `net/url.getScheme(rawURL)`. -/
def getScheme (rawURL : GoString) : Option (GoString × GoString) :=
  getSchemeFrom rawURL 0 rawURL

/-- Go `net/url.validOptionalPort`: empty, or a colon followed by digits only. -/
def validOptionalPort (port : GoString) : Bool :=
  match port with
  | [] => true
  | c :: digits => c == ch ':' && digits.all (fun b => ch '0' ≤ b && b ≤ ch '9')

/-- Go `net/url.validUserinfo`. -/
def validUserinfo (s : GoString) : Bool :=
  s.all (fun r =>
    (ch 'A' ≤ r && r ≤ ch 'Z') || (ch 'a' ≤ r && r ≤ ch 'z') || (ch '0' ≤ r && r ≤ ch '9') ||
    decide (r ∈ [ch '-', ch '.', ch '_', ch ':', ch '~', ch '!', ch '$', ch '&', 0x27,
      ch '(', ch ')', ch '*', ch '+', ch ',', ch ';', ch '=', ch '%', ch '@']))

/-- Go `net/url.parseHost(host)`: `true` when it returns no error. -/
def parseHost (host : GoString) : Bool :=
  if HasPrefix host (str "[") then
    match LastIndex host (str "]") with
    | none => false
    | some i =>
      if !validOptionalPort (host.drop (i + 1)) then false
      else
        match Index (host.take i) (str "%25") with
        | some zone =>
          unescape Encoding.encodeHost (host.take zone) &&
          unescape Encoding.encodeZone ((host.take i).drop zone) &&
          unescape Encoding.encodeHost (host.drop i)
        | none => unescape Encoding.encodeHost host
  else
    match LastIndex host (str ":") with
    | some i =>
      if !validOptionalPort (host.drop i) then false
      else unescape Encoding.encodeHost host
    | none => unescape Encoding.encodeHost host

/-- Go `net/url.parseAuthority(authority)`: `true` when it returns no error. -/
def parseAuthority (authority : GoString) : Bool :=
  match LastIndex authority (str "@") with
  | none => parseHost authority
  | some i =>
    if !parseHost (authority.drop (i + 1)) then false
    else
      let userinfo := authority.take i
      if !validUserinfo userinfo then false
      else if !Contains userinfo (str ":") then
        unescape Encoding.encodeUserPassword userinfo
      else
        unescape Encoding.encodeUserPassword (Cut userinfo (str ":")).1 &&
        unescape Encoding.encodeUserPassword (Cut userinfo (str ":")).2

/-- Go `net/url.parse(rawURL, viaRequest)`: `none` when it returns an error. -/
def parse (rawURL : GoString) (viaRequest : Bool) : Option URL :=
  if stringContainsCTLByte rawURL then none
  else if rawURL = [] ∧ viaRequest = true then none
  else if rawURL = str "*" then some ⟨[]⟩
  else
    match getScheme rawURL with
    | none => none
    | some (scheme0, rest0) =>
      let scheme := ToLower scheme0
      let rest :=
        if HasSuffix rest0 (str "?") && Count rest0 (ch '?') == 1 then rest0.take (rest0.length - 1)
        else (Cut rest0 (str "?")).1
      if !HasPrefix rest (str "/") && scheme != [] then some ⟨scheme⟩
      else if !HasPrefix rest (str "/") && viaRequest then none
      else if !HasPrefix rest (str "/") && Contains (Cut rest (str "/")).1 (str ":") then none
      else if (scheme != [] || (!viaRequest && !HasPrefix rest (str "///"))) &&
          HasPrefix rest (str "//") then
        let authority0 := rest.drop 2
        let split : GoString × GoString :=
          match Index authority0 (str "/") with
          | some i => (authority0.take i, authority0.drop i)
          | none => (authority0, [])
        if !parseAuthority split.1 then none
        else if !unescape Encoding.encodePath split.2 then none
        else some ⟨scheme⟩
      else if !unescape Encoding.encodePath rest then none
      else some ⟨scheme⟩

/-- Go `net/url.Parse(rawURL)`: `none` when it returns `(nil, err)`. -/
def Parse (rawURL : GoString) : Option URL :=
  match parse (Cut rawURL (str "#")).1 false with
  | none => none
  | some url =>
    if (Cut rawURL (str "#")).2 = [] then some url
    else if !unescape Encoding.encodeFragment (Cut rawURL (str "#")).2 then none
    else some url

/-! ## `encoding/json.Marshal` of a `Beacon` (Go standard library) -/

/-- Source `type Beacon struct` (lines 14-21). A slice is `none` when nil. -/
structure Beacon where
  HostId : GoString
  Addr : GoString
  Proto : GoString
  Versions : Option (List GoString)
  Caps : Option (List GoString)
  TTL : Int
  deriving DecidableEq, Repr

/-- Go `utf8.RuneError`. -/
def RuneError : Nat := 0xFFFD

/-- Go `unicode/utf8.first`: information about the first byte of an encoding
(`0xF0` ASCII, `0xF1` invalid, otherwise accept-range index and size). -/
def first (b : UInt8) : UInt8 :=
  if b < 0x80 then 0xF0
  else if b < 0xC2 then 0xF1
  else if b < 0xE0 then 0x02
  else if b = 0xE0 then 0x13
  else if b < 0xED then 0x03
  else if b = 0xED then 0x23
  else if b < 0xF0 then 0x03
  else if b = 0xF0 then 0x34
  else if b < 0xF4 then 0x04
  else if b = 0xF4 then 0x44
  else 0xF1

/-- Go `unicode/utf8.acceptRanges`: lowest and highest second byte allowed. -/
def acceptRanges (i : UInt8) : UInt8 × UInt8 :=
  if i = 0 then (0x80, 0xBF)
  else if i = 1 then (0xA0, 0xBF)
  else if i = 2 then (0x80, 0x9F)
  else if i = 3 then (0x90, 0xBF)
  else if i = 4 then (0x80, 0x8F)
  else (0, 0)

/-- Go `utf8.DecodeRuneInString(s)`: the rune and the number of bytes it takes. -/
def DecodeRuneInString (s : GoString) : Nat × Nat :=
  match s with
  | [] => (RuneError, 0)
  | s0 :: t =>
    let x := first s0
    if x ≥ 0xF0 then
      (if x &&& 1 = 1 then RuneError else s0.toNat, 1)
    else
      let sz := (x &&& 7).toNat
      let accept := acceptRanges (x >>> 4)
      if s.length < sz then (RuneError, 1)
      else
        match t with
        | [] => (RuneError, 1)
        | s1 :: t1 =>
          if s1 < accept.1 || accept.2 < s1 then (RuneError, 1)
          else if sz ≤ 2 then ((s0 &&& 0x1F).toNat <<< 6 ||| (s1 &&& 0x3F).toNat, 2)
          else
            match t1 with
            | [] => (RuneError, 1)
            | s2 :: t2 =>
              if s2 < 0x80 || 0xBF < s2 then (RuneError, 1)
              else if sz ≤ 3 then
                ((s0 &&& 0x0F).toNat <<< 12 ||| (s1 &&& 0x3F).toNat <<< 6 ||| (s2 &&& 0x3F).toNat, 3)
              else
                match t2 with
                | [] => (RuneError, 1)
                | s3 :: _ =>
                  if s3 < 0x80 || 0xBF < s3 then (RuneError, 1)
                  else
                    ((s0 &&& 0x07).toNat <<< 18 ||| (s1 &&& 0x3F).toNat <<< 12 |||
                      (s2 &&& 0x3F).toNat <<< 6 ||| (s3 &&& 0x3F).toNat, 4)

/-- Go `encoding/json.htmlSafeSet[b]` for `b < utf8.RuneSelf`: the printable
ASCII bytes and 0x7f, without the double quote, `&`, `<`, `>` and the backslash. -/
def htmlSafeSet (b : UInt8) : Bool :=
  0x20 ≤ b && b < 0x80 && b != 0x22 && b != ch '&' && b != ch '<' && b != ch '>' && b != 0x5C

/-- Go `encoding/json.hex[n]`, for `n < 16`. -/
def hexDigit (n : Nat) : UInt8 := (str "0123456789abcdef").getD n 0

/-- The escape `appendString` emits for an ASCII byte outside `htmlSafeSet`. -/
def escapeByte (b : UInt8) : GoString :=
  if b = 0x5C ∨ b = 0x22 then [0x5C, b]
  else if b = 0x08 then [0x5C, ch 'b']
  else if b = 0x0C then [0x5C, ch 'f']
  else if b = 0x0A then [0x5C, ch 'n']
  else if b = 0x0D then [0x5C, ch 'r']
  else if b = 0x09 then [0x5C, ch 't']
  else [0x5C, ch 'u', ch '0', ch '0', hexDigit (b >>> 4).toNat, hexDigit (b &&& 0xF).toNat]

/-- The loop of Go `encoding/json.appendString(dst, src, escapeHTML = true)`
from the current position on: safe bytes are copied, the others escaped. A rune
of `size >= 1` bytes moves the position by `size`, that is past the head byte
and `size - 1` bytes of the tail. -/
def appendStringFrom : GoString → GoString
  | [] => []
  | b :: rest =>
    if b < 0x80 then
      if htmlSafeSet b then b :: appendStringFrom rest
      else escapeByte b ++ appendStringFrom rest
    else
      let r := DecodeRuneInString ((b :: rest).take 4)
      if r.1 = RuneError ∧ r.2 = 1 then
        [0x5C, ch 'u', ch 'f', ch 'f', ch 'f', ch 'd'] ++ appendStringFrom rest
      else if r.1 = 0x2028 ∨ r.1 = 0x2029 then
        [0x5C, ch 'u', ch '2', ch '0', ch '2', hexDigit (r.1 &&& 0xF)] ++
          appendStringFrom (rest.drop (r.2 - 1))
      else
        (b :: rest).take r.2 ++ appendStringFrom (rest.drop (r.2 - 1))
termination_by s => s.length
decreasing_by all_goals (simp <;> omega)

/-- Go `encoding/json.appendString`: the JSON string literal of `src`. -/
def appendString (src : GoString) : GoString :=
  [0x22] ++ appendStringFrom src ++ [0x22]

/-- Go `strconv.AppendInt(dst, i, 10)`: decimal digits, `-` first when negative. -/
def FormatInt (i : Int) : GoString :=
  if i < 0 then ch '-' :: (Nat.toDigits 10 i.natAbs).map ch
  else (Nat.toDigits 10 i.natAbs).map ch

/-- JSON encoding of a `[]string`: `null` for a nil slice, otherwise the
elements between brackets, separated by commas. -/
def marshalStrings : Option (List GoString) → GoString
  | none => str "null"
  | some xs => str "[" ++ List.intercalate (str ",") (xs.map appendString) ++ str "]"

/-- Go `json.Marshal(b)` for a `Beacon`: an object with the fields in
declaration order under the names of their `json` tags. -/
def Marshal (b : Beacon) : GoString :=
  str "\x7b\"hostId\":" ++ appendString b.HostId ++
  str ",\"addr\":" ++ appendString b.Addr ++
  str ",\"proto\":" ++ appendString b.Proto ++
  str ",\"versions\":" ++ marshalStrings b.Versions ++
  str ",\"caps\":" ++ marshalStrings b.Caps ++
  str ",\"ttl\":" ++ FormatInt b.TTL ++ str "\x7d"

/-! ## `main`: building the descriptor -/

/-- How a goroutine can bring the process down. -/
inductive Panic where
  | nilPointerDereference
  | listenFailed
  deriving DecidableEq, Repr

/-- What `main` hands to the two activities it starts. -/
structure Launch where
  port : GoString
  disc : GoString
  beacon : Beacon
  deriving DecidableEq, Repr

/-- Source `main` (lines 71-88) up to the start of the beacon loop.
`url.Parse` returns a nil `*URL` together with its error; the error is
discarded and `u.Scheme` is read, which panics on the nil pointer. -/
def main (env : Env) (osHostname : Option GoString) : Except Panic Launch :=
  let port := getenv env (str "PORT") (str "30018")
  let disc := getenv env (str "DISCOVERY_TARGET") (str "host.docker.internal:53530")
  let hostId := getenv env (str "HOST_ID") (hostname osHostname)
  let addr := str "tcp://" ++ getenv env (str "PUBLIC_HOST") (str "beachhead") ++ str ":" ++ port
  match Parse addr with
  | none => Except.error Panic.nilPointerDereference
  | some u =>
    let proto := u.Scheme
    Except.ok
      { port := port
        disc := disc
        beacon :=
          { HostId := hostId, Addr := addr, Proto := proto,
            Versions := some [str "v1"], Caps := some [str "echo"], TTL := 8000 } }

/-- The start of source `runTCP` (lines 45-48): a failed `net.Listen` panics. -/
def runTCPListen (listenOk : Bool) : Except Panic Unit :=
  if listenOk then Except.ok () else Except.error Panic.listenFailed

/-- The environment in which no variable is set. -/
def emptyEnv : Env := fun _ => none

/-- An environment given by a list of `(name, value)` pairs; the first pair
for a name counts. -/
def envOf (vars : List (GoString × GoString)) : Env :=
  fun k => (vars.find? (fun kv => kv.1 = k)).map (fun kv => kv.2)

/-! ## `sendBeaconLoop` -/

/-- What the beacon emitter does, in program order. `write raddr data ok` is a
`conn.Write(data)` on the socket connected to `raddr`. -/
inductive BeaconEvent where
  | println (msg : GoString)
  | write (raddr : Nat) (data : GoString) (ok : Bool)
  | tick
  | close
  deriving DecidableEq, Repr

/-- How far a run of the emitter got: it returned, or it is still in its loop. -/
inductive BeaconStatus where
  | returned
  | looping
  deriving DecidableEq, Repr

/-- The events of a run of the emitter and where it stands. -/
structure BeaconRun where
  trace : List BeaconEvent
  status : BeaconStatus
  deriving DecidableEq, Repr

/-- The network as the emitter meets it: `resolve target` is the address
`net.ResolveUDPAddr` gives (`none` on error), `dial raddr` tells whether
`net.DialUDP` succeeds, `send i` whether the `i`-th `conn.Write` does. -/
structure UDPNet where
  resolve : GoString → Option Nat
  dial : Nat → Bool
  send : Nat → Bool

/-- The `for` loop of `sendBeaconLoop` (lines 38-41), `ticks` iterations of it
starting with send number `i`: write `enc`, discard the result, wait for the
ticker. -/
def beaconLoop (net : UDPNet) (raddr : Nat) (enc : GoString) : Nat → Nat → List BeaconEvent
  | _, 0 => []
  | i, ticks + 1 =>
    BeaconEvent.write raddr enc (net.send i) :: BeaconEvent.tick
      :: beaconLoop net raddr enc (i + 1) ticks

/-- Source `sendBeaconLoop(target, b)` (lines 23-42), observed for `ticks`
iterations of its loop. The loop has no exit, so the deferred `conn.Close()`
never runs once the loop is entered. -/
def sendBeaconLoop (net : UDPNet) (ticks : Nat) (target : GoString) (b : Beacon) : BeaconRun :=
  match net.resolve target with
  | none => ⟨[BeaconEvent.println (str "beacon resolve error:")], BeaconStatus.returned⟩
  | some raddr =>
    if net.dial raddr = false then
      ⟨[BeaconEvent.println (str "beacon dial error:")], BeaconStatus.returned⟩
    else
      let enc := Marshal b
      ⟨beaconLoop net raddr enc 0 ticks, BeaconStatus.looping⟩

/-- The datagrams of a trace: the data of every `conn.Write`, in order. -/
def datagrams : List BeaconEvent → List GoString
  | [] => []
  | BeaconEvent.write _ data _ :: es => data :: datagrams es
  | _ :: es => datagrams es

/-! ## Definitions used to state the claims -/

/-- The value of `addr` in `main`: `fmt.Sprintf("tcp://%s:%s", PUBLIC_HOST, PORT)`
with the effective values of the two variables. -/
def mainAddr (env : Env) : GoString :=
  str "tcp://" ++ getenv env (str "PUBLIC_HOST") (str "beachhead") ++ str ":" ++
    getenv env (str "PORT") (str "30018")

theorem str_PING : str "PING" = [0x50, 0x49, 0x4E, 0x47] := by decide

theorem str_PONG : str "PONG\n" = [0x50, 0x4F, 0x4E, 0x47, 0x0A] := by decide

theorem hasPrefix_PING (c : GoString) :
    HasPrefix c (str "PING") = true ↔ c.take 4 = str "PING" := by
  rw [str_PING]
  unfold HasPrefix
  constructor
  · intro h
    simp at h
    exact h.2
  · intro h
    have hl : (c.take 4).length = 4 := by rw [h]; rfl
    simp at hl
    simp [h, hl]

theorem specResponse_eq (c : GoString) :
    specResponse c = if c.take 4 = str "PING" then str "PONG\n" else c := by
  rw [str_PING, str_PONG]; rfl

theorem connRead_fits (buf : List UInt8) (c : GoString)
    (hbuf : buf.length = 4096) (hlen : c.length ≤ 4096) :
    (connRead buf c).2.take (connRead buf c).1 = c ∧ (connRead buf c).2.length = 4096 := by
  unfold connRead
  have hmin : min c.length buf.length = c.length := by omega
  simp only [hmin, List.take_length]
  constructor
  · simp
  · simp; omega

theorem connLoop_step (wr : Nat → Bool) (buf : List UInt8) (i : Nat) (c : GoString)
    (rs : List ReadResult) (hbuf : buf.length = 4096) (hlen : c.length ≤ 4096) :
    connLoop wr buf i (ReadResult.ok c :: rs) =
      ⟨ConnEvent.read (ReadResult.ok c) :: ConnEvent.write (specResponse c) (wr i)
          :: (connLoop wr (connRead buf c).2 (i + 1) rs).trace,
        (connLoop wr (connRead buf c).2 (i + 1) rs).status⟩ := by
  have h := (connRead_fits buf c hbuf hlen).1
  simp only [connLoop, h, specResponse_eq, hasPrefix_PING]

theorem connLoop_chunks (wr : Nat → Bool) (cs : List GoString) :
    ∀ (buf : List UInt8) (i : Nat) (tail : List ReadResult), buf.length = 4096 →
      (∀ c ∈ cs, c.length ≤ 4096) →
      ∃ buf2 : List UInt8, buf2.length = 4096 ∧
        connLoop wr buf i (cs.map ReadResult.ok ++ tail) =
          ⟨specExchange wr i cs ++ (connLoop wr buf2 (i + cs.length) tail).trace,
            (connLoop wr buf2 (i + cs.length) tail).status⟩ := by
  induction cs with
  | nil =>
    intro buf i tail hbuf _
    exact ⟨buf, hbuf, by simp [specExchange]⟩
  | cons c cs ih =>
    intro buf i tail hbuf hcs
    have hc : c.length ≤ 4096 := hcs c (List.mem_cons_self _ _)
    have hcs2 : ∀ x ∈ cs, x.length ≤ 4096 := fun x hx => hcs x (List.mem_cons_of_mem _ hx)
    obtain ⟨buf2, hbuf2, heq⟩ :=
      ih (connRead buf c).2 (i + 1) tail (connRead_fits buf c hbuf hc).2 hcs2
    refine ⟨buf2, hbuf2, ?_⟩
    have hidx : i + (c :: cs).length = i + 1 + cs.length := by simp; omega
    rw [List.map_cons, List.cons_append, connLoop_step wr buf i c _ hbuf hc, heq, hidx]
    simp [specExchange]

theorem makeBuf_length : makeBuf.length = 4096 := List.length_replicate 4096 0

theorem written_append (xs ys : List ConnEvent) :
    written (xs ++ ys) = written xs ++ written ys := by
  induction xs with
  | nil => simp [written]
  | cons e es ih => cases e <;> simp [written, ih]

theorem writeCount_append (xs ys : List ConnEvent) :
    writeCount (xs ++ ys) = writeCount xs + writeCount ys := by
  induction xs with
  | nil => simp [writeCount]
  | cons e es ih => cases e <;> simp [writeCount, ih]; omega

theorem written_specExchange (wr : Nat → Bool) (cs : List GoString) :
    ∀ i, written (specExchange wr i cs) = (cs.map specResponse).flatten := by
  induction cs with
  | nil => intro i; simp [specExchange, written]
  | cons c cs ih => intro i; simp [specExchange, written, ih]

theorem writeCount_specExchange (wr : Nat → Bool) (cs : List GoString) :
    ∀ i, writeCount (specExchange wr i cs) = cs.length := by
  induction cs with
  | nil => intro i; simp [specExchange, writeCount]
  | cons c cs ih => intro i; simp [specExchange, writeCount, ih]

/-- After the chunks `cs`, a script that is used up or continues with a read
error brings no further write. -/
theorem written_connHandler (wr : Nat → Bool) (cs : List GoString) (tail : List ReadResult)
    (hcs : ∀ c ∈ cs, c.length ≤ 4096)
    (htail : tail = [] ∨ ∃ rest, tail = ReadResult.err :: rest) :
    written (connHandler wr (cs.map ReadResult.ok ++ tail)).trace =
      (cs.map specResponse).flatten := by
  obtain ⟨buf2, _, heq⟩ := connLoop_chunks wr cs makeBuf 0 tail makeBuf_length hcs
  unfold connHandler
  rw [heq]
  simp only [written_append, written_specExchange]
  rcases htail with h | ⟨rest, h⟩ <;> subst h <;> simp [connLoop, written]

/-! ## The connection handler: claims -/

/-- C1. In any iteration of the handler loop, a successful read that returns a
chunk of at most 4096 bytes whose first four bytes are `PING` is answered by one
write of exactly the five bytes `PONG\n`, whatever follows the prefix; the loop
then goes on with the next read. -/
theorem ping_chunk_answered_pong (wr : Nat → Bool) (buf : List UInt8) (i : Nat) (c : GoString)
    (rs : List ReadResult) (hbuf : buf.length = 4096) (hlen : c.length ≤ 4096)
    (hping : c.take 4 = str "PING") :
    connLoop wr buf i (ReadResult.ok c :: rs) =
      ⟨ConnEvent.read (ReadResult.ok c) :: ConnEvent.write (str "PONG\n") (wr i)
          :: (connLoop wr (connRead buf c).2 (i + 1) rs).trace,
        (connLoop wr (connRead buf c).2 (i + 1) rs).status⟩ ∧
    (connRead buf c).2.length = 4096 := by
  refine ⟨?_, (connRead_fits buf c hbuf hlen).2⟩
  rw [connLoop_step wr buf i c rs hbuf hlen, specResponse_eq, if_pos hping]

/-- C1, at the first read of a connection that delivers `PINGxyz`. -/
theorem ping_chunk_answered_pong_witness :
    connLoop (fun _ => true) makeBuf 0 (ReadResult.ok (str "PINGxyz") :: []) =
      ⟨ConnEvent.read (ReadResult.ok (str "PINGxyz")) :: ConnEvent.write (str "PONG\n") true
          :: (connLoop (fun _ => true) (connRead makeBuf (str "PINGxyz")).2 (0 + 1) []).trace,
        (connLoop (fun _ => true) (connRead makeBuf (str "PINGxyz")).2 (0 + 1) []).status⟩ ∧
    (connRead makeBuf (str "PINGxyz")).2.length = 4096 :=
  ping_chunk_answered_pong (fun _ => true) makeBuf 0 (str "PINGxyz") [] makeBuf_length
    (by decide) (by decide)

/-- C2. In any iteration of the handler loop, a successful read that returns a
chunk of at most 4096 bytes that does not begin with the four bytes `PING`
(shorter chunks and the empty chunk included) is answered by one write of
exactly the bytes of the chunk. -/
theorem other_chunk_echoed (wr : Nat → Bool) (buf : List UInt8) (i : Nat) (c : GoString)
    (rs : List ReadResult) (hbuf : buf.length = 4096) (hlen : c.length ≤ 4096)
    (hother : c.take 4 ≠ str "PING") :
    connLoop wr buf i (ReadResult.ok c :: rs) =
      ⟨ConnEvent.read (ReadResult.ok c) :: ConnEvent.write c (wr i)
          :: (connLoop wr (connRead buf c).2 (i + 1) rs).trace,
        (connLoop wr (connRead buf c).2 (i + 1) rs).status⟩ ∧
    (connRead buf c).2.length = 4096 := by
  refine ⟨?_, (connRead_fits buf c hbuf hlen).2⟩
  rw [connLoop_step wr buf i c rs hbuf hlen, specResponse_eq, if_neg hother]

/-- C2, at the first read of a connection that delivers the three bytes `PIN`. -/
theorem other_chunk_echoed_witness :
    connLoop (fun _ => true) makeBuf 0 (ReadResult.ok (str "PIN") :: []) =
      ⟨ConnEvent.read (ReadResult.ok (str "PIN")) :: ConnEvent.write (str "PIN") true
          :: (connLoop (fun _ => true) (connRead makeBuf (str "PIN")).2 (0 + 1) []).trace,
        (connLoop (fun _ => true) (connRead makeBuf (str "PIN")).2 (0 + 1) []).status⟩ ∧
    (connRead makeBuf (str "PIN")).2.length = 4096 :=
  other_chunk_echoed (fun _ => true) makeBuf 0 (str "PIN") [] makeBuf_length
    (by decide) (by decide)

/-- C3, as stated, fails on the code. The seven bytes `PINGabc` start with
`PING`; delivered as the reads `PING` and `abc` they are answered by `PONG\nabc`,
not by `PONG\n`, while the same bytes delivered in one read are answered by
`PONG\n`. The five bytes `xPING` do not start with `PING`; delivered as the reads
`x` and `PING` they are answered by `xPONG\n`, not by `xPING`. -/
theorem total_response_depends_on_read_boundaries :
    [str "PING", str "abc"].flatten = str "PINGabc" ∧
    HasPrefix (str "PINGabc") (str "PING") = true ∧
    written (connHandler (fun _ => true)
      [ReadResult.ok (str "PING"), ReadResult.ok (str "abc"), ReadResult.err]).trace
        = str "PONG\nabc" ∧
    str "PONG\nabc" ≠ str "PONG\n" ∧
    written (connHandler (fun _ => true)
      [ReadResult.ok (str "PINGabc"), ReadResult.err]).trace = str "PONG\n" ∧
    [str "x", str "PING"].flatten = str "xPING" ∧
    HasPrefix (str "xPING") (str "PING") = false ∧
    written (connHandler (fun _ => true)
      [ReadResult.ok (str "x"), ReadResult.ok (str "PING"), ReadResult.err]).trace
        = str "xPONG\n" ∧
    str "xPONG\n" ≠ str "xPING" := by
  refine ⟨by decide, by decide, ?_, by decide, ?_, by decide, by decide, ?_, by decide⟩
  · have h := written_connHandler (fun _ => true) [str "PING", str "abc"] [ReadResult.err]
      (by decide) (Or.inr ⟨[], rfl⟩)
    rw [show [ReadResult.ok (str "PING"), ReadResult.ok (str "abc"), ReadResult.err]
      = [str "PING", str "abc"].map ReadResult.ok ++ [ReadResult.err] from rfl, h]
    decide
  · have h := written_connHandler (fun _ => true) [str "PINGabc"] [ReadResult.err]
      (by decide) (Or.inr ⟨[], rfl⟩)
    rw [show [ReadResult.ok (str "PINGabc"), ReadResult.err]
      = [str "PINGabc"].map ReadResult.ok ++ [ReadResult.err] from rfl, h]
    decide
  · have h := written_connHandler (fun _ => true) [str "x", str "PING"] [ReadResult.err]
      (by decide) (Or.inr ⟨[], rfl⟩)
    rw [show [ReadResult.ok (str "x"), ReadResult.ok (str "PING"), ReadResult.err]
      = [str "x", str "PING"].map ReadResult.ok ++ [ReadResult.err] from rfl, h]
    decide

/-- C3, amended. For every delivery of the bytes sent on one connection as
successive non-empty reads of at most 4096 bytes each (after which the peer is
silent or the read fails), everything the handler writes back is the
concatenation of the responses to the single reads (`PONG\n` for a read that
starts with `PING`, the bytes of the read otherwise). It is the sequence sent,
unchanged, when no read starts with `PING`; and when the whole sequence arrives
in one read it is `PONG\n` if the sequence starts with `PING` and the sequence
itself if not. -/
theorem total_response_is_per_read (wr : Nat → Bool) (cs : List GoString)
    (tail : List ReadResult) (hcs : ∀ c ∈ cs, c ≠ [] ∧ c.length ≤ 4096)
    (htail : tail = [] ∨ ∃ rest, tail = ReadResult.err :: rest) :
    written (connHandler wr (cs.map ReadResult.ok ++ tail)).trace
      = (cs.map specResponse).flatten ∧
    ((∀ c ∈ cs, c.take 4 ≠ str "PING") →
      written (connHandler wr (cs.map ReadResult.ok ++ tail)).trace = cs.flatten) ∧
    (cs.length = 1 →
      written (connHandler wr (cs.map ReadResult.ok ++ tail)).trace
        = if cs.flatten.take 4 = str "PING" then str "PONG\n" else cs.flatten) := by
  have h := written_connHandler wr cs tail (fun c hc => (hcs c hc).2) htail
  refine ⟨h, ?_, ?_⟩
  · intro hno
    rw [h]
    congr 1
    calc cs.map specResponse = cs.map id :=
          List.map_congr_left (fun c hc => by rw [specResponse_eq, if_neg (hno c hc)]; rfl)
      _ = cs := List.map_id cs
  · intro hone
    rw [h]
    match cs, hone with
    | [c], _ => simp [specResponse_eq]

/-- C3 amended, on the reads `he` and `llo` followed by the end of the stream. -/
theorem total_response_is_per_read_witness :
    written (connHandler (fun _ => false)
      ([str "he", str "llo"].map ReadResult.ok ++ [ReadResult.err])).trace
      = ([str "he", str "llo"].map specResponse).flatten ∧
    ((∀ c ∈ [str "he", str "llo"], c.take 4 ≠ str "PING") →
      written (connHandler (fun _ => false)
        ([str "he", str "llo"].map ReadResult.ok ++ [ReadResult.err])).trace
        = [str "he", str "llo"].flatten) ∧
    ([str "he", str "llo"].length = 1 →
      written (connHandler (fun _ => false)
        ([str "he", str "llo"].map ReadResult.ok ++ [ReadResult.err])).trace
        = if [str "he", str "llo"].flatten.take 4 = str "PING" then str "PONG\n"
          else [str "he", str "llo"].flatten) :=
  total_response_is_per_read (fun _ => false) [str "he", str "llo"] [ReadResult.err]
    (by decide) (Or.inr ⟨[], rfl⟩)

/-- C10. For chunks `c1..ck` (each at most 4096 bytes) returned by successive
successful reads and followed by a failed read, the handler does, in this
order: read `c1`, write the response to `c1`, read `c2`, write the response to
`c2`, ..., the failed read, close; it then returns. It attempts exactly `k`
writes whatever the outcome of each write is, and nothing of the script after
the failed read is looked at. -/
theorem handler_trace (wr : Nat → Bool) (cs : List GoString) (rest : List ReadResult)
    (hcs : ∀ c ∈ cs, c.length ≤ 4096) :
    connHandler wr (cs.map ReadResult.ok ++ ReadResult.err :: rest) =
      ⟨specExchange wr 0 cs ++ [ConnEvent.read ReadResult.err, ConnEvent.close],
        Status.returned⟩ ∧
    writeCount (connHandler wr (cs.map ReadResult.ok ++ ReadResult.err :: rest)).trace
      = cs.length := by
  obtain ⟨buf2, _, heq⟩ :=
    connLoop_chunks wr cs makeBuf 0 (ReadResult.err :: rest) makeBuf_length hcs
  have hrun : connHandler wr (cs.map ReadResult.ok ++ ReadResult.err :: rest) =
      ⟨specExchange wr 0 cs ++ [ConnEvent.read ReadResult.err, ConnEvent.close],
        Status.returned⟩ := by
    unfold connHandler
    rw [heq]
    simp [connLoop]
  refine ⟨hrun, ?_⟩
  rw [hrun]
  simp [writeCount_append, writeCount_specExchange, writeCount]

/-- C10, on the chunks `PING` and `hi` with a first write that fails. -/
theorem handler_trace_witness :
    connHandler (fun i => decide (i ≠ 0))
        ([str "PING", str "hi"].map ReadResult.ok ++ ReadResult.err :: [ReadResult.ok (str "late")]) =
      ⟨specExchange (fun i => decide (i ≠ 0)) 0 [str "PING", str "hi"]
          ++ [ConnEvent.read ReadResult.err, ConnEvent.close],
        Status.returned⟩ ∧
    writeCount (connHandler (fun i => decide (i ≠ 0))
        ([str "PING", str "hi"].map ReadResult.ok
          ++ ReadResult.err :: [ReadResult.ok (str "late")])).trace
      = [str "PING", str "hi"].length :=
  handler_trace (fun i => decide (i ≠ 0)) [str "PING", str "hi"] [ReadResult.ok (str "late")]
    (by decide)

/-! ## Lemmas on the JSON encoding -/

theorem getenv_unset (env : Env) (k d : GoString) (h : env k = none) : getenv env k d = d := by
  simp [getenv, osGetenv, h]

theorem main_of_parse (env : Env) (hn : Option GoString) (u : URL)
    (h : Parse (mainAddr env) = some u) :
    main env hn = Except.ok
      { port := getenv env (str "PORT") (str "30018")
        disc := getenv env (str "DISCOVERY_TARGET") (str "host.docker.internal:53530")
        beacon :=
          { HostId := getenv env (str "HOST_ID") (hostname hn), Addr := mainAddr env,
            Proto := u.Scheme, Versions := some [str "v1"], Caps := some [str "echo"],
            TTL := 8000 } } := by
  unfold mainAddr at h
  unfold main
  simp only [h]
  rfl

theorem main_of_parse_fails (env : Env) (hn : Option GoString)
    (h : Parse (mainAddr env) = none) :
    main env hn = Except.error Panic.nilPointerDereference := by
  unfold mainAddr at h
  unfold main
  simp only [h]

/-- C6 fails on the code. With `PUBLIC_HOST=bad host` (nothing else set)
`url.Parse` rejects `tcp://bad host:30018` (invalid character in host name) and
returns a nil URL; `main` discards the error and reads `u.Scheme`, so it panics
on the nil pointer although the port can be bound and the target resolved. The
same happens with `PORT=abc` (invalid port after host). This panic is not the
one a failed bind raises in `runTCP`. -/
theorem malformed_config_panics_in_main (hn : Option GoString) :
    main (envOf [(str "PUBLIC_HOST", str "bad host")]) hn
      = Except.error Panic.nilPointerDereference ∧
    main (envOf [(str "PORT", str "abc")]) hn = Except.error Panic.nilPointerDereference ∧
    (∀ listenOk, runTCPListen listenOk ≠ Except.error Panic.nilPointerDereference) := by
  refine ⟨?_, ?_, ?_⟩
  · apply main_of_parse_fails
    decide
  · apply main_of_parse_fails
    decide
  · intro listenOk
    cases listenOk <;> simp [runTCPListen]

/-- C7. `getenv(k, d)` is the value of `k` when the environment holds a
non-empty value for it, and `d` when `k` is unset or set to the empty string.
With no variable set `main` runs with port `30018`, discovery target
`host.docker.internal:53530`, public host `beachhead`, and a host identity that
is the system host name, or `go-beachhead` when the lookup of the host name
fails. -/
theorem getenv_value_or_default (env : Env) (k d : GoString) (hn : Option GoString) :
    (∀ v, env k = some v → v ≠ [] → getenv env k d = v) ∧
    (env k = none → getenv env k d = d) ∧
    (env k = some [] → getenv env k d = d) ∧
    (∃ l, main emptyEnv hn = Except.ok l ∧ l.port = str "30018" ∧
      l.disc = str "host.docker.internal:53530" ∧
      getenv emptyEnv (str "PUBLIC_HOST") (str "beachhead") = str "beachhead" ∧
      l.beacon.Addr = str "tcp://" ++ str "beachhead" ++ str ":" ++ str "30018" ∧
      l.beacon.HostId = match hn with
        | some h => h
        | none => str "go-beachhead") := by
  refine ⟨?_, getenv_unset env k d, ?_, ?_⟩
  · intro v hv hne
    simp [getenv, osGetenv, hv, hne]
  · intro hv
    simp [getenv, osGetenv, hv]
  · have hparse : Parse (mainAddr emptyEnv) = some ⟨str "tcp"⟩ := by decide
    refine ⟨_, main_of_parse emptyEnv hn _ hparse, rfl, rfl, rfl, rfl, ?_⟩
    cases hn <;> rfl

/-- C7, for `PORT=8080`: the value wins over the default `30018`. -/
theorem getenv_value_or_default_witness :
    getenv (envOf [(str "PORT", str "8080")]) (str "PORT") (str "30018") = str "8080" :=
  (getenv_value_or_default (envOf [(str "PORT", str "8080")]) (str "PORT") (str "30018") none).1
    (str "8080") (by decide) (by decide)

/-! ## The beacon emitter: claims -/

theorem datagrams_beaconLoop (net : UDPNet) (raddr : Nat) (enc : GoString) (ticks : Nat) :
    ∀ i, datagrams (beaconLoop net raddr enc i ticks) = List.replicate ticks enc := by
  induction ticks with
  | zero => intro i; rfl
  | succ t ih => intro i; simp [beaconLoop, datagrams, ih, List.replicate_succ]

/-- C8. Once the target is resolved and the socket is open, the emitter
observed for `ticks` iterations of its loop has attempted exactly `ticks` sends
and is still in its loop, whatever the outcome of each send; every datagram,
and so the `n`-th for each `1 ≤ n ≤ ticks`, is the encoding `Marshal b` of the
descriptor. -/
theorem beacon_datagrams_constant (net : UDPNet) (target : GoString) (b : Beacon) (raddr : Nat)
    (ticks n : Nat) (hres : net.resolve target = some raddr) (hdial : net.dial raddr = true)
    (h1 : 1 ≤ n) (hn : n ≤ ticks) :
    (datagrams (sendBeaconLoop net ticks target b).trace)[n - 1]? = some (Marshal b) ∧
    datagrams (sendBeaconLoop net ticks target b).trace = List.replicate ticks (Marshal b) ∧
    (sendBeaconLoop net ticks target b).status = BeaconStatus.looping := by
  have hrun : sendBeaconLoop net ticks target b =
      ⟨beaconLoop net raddr (Marshal b) 0 ticks, BeaconStatus.looping⟩ := by
    simp [sendBeaconLoop, hres, hdial]
  rw [hrun]
  refine ⟨?_, datagrams_beaconLoop net raddr (Marshal b) ticks 0, rfl⟩
  show (datagrams (beaconLoop net raddr (Marshal b) 0 ticks))[n - 1]? = some (Marshal b)
  rw [datagrams_beaconLoop, List.getElem?_replicate]
  have : n - 1 < ticks := by omega
  simp [this]

/-- C8, for the third datagram when the first two sends fail. -/
theorem beacon_datagrams_constant_witness :
    (datagrams (sendBeaconLoop ⟨fun _ => some 7, fun _ => true, fun i => decide (2 ≤ i)⟩ 5
        (str "host.docker.internal:53530")
        ⟨str "h", str "tcp://beachhead:30018", str "tcp", some [str "v1"], some [str "echo"],
          8000⟩).trace)[3 - 1]?
      = some (Marshal ⟨str "h", str "tcp://beachhead:30018", str "tcp", some [str "v1"],
          some [str "echo"], 8000⟩) :=
  (beacon_datagrams_constant ⟨fun _ => some 7, fun _ => true, fun i => decide (2 ≤ i)⟩
    (str "host.docker.internal:53530")
    ⟨str "h", str "tcp://beachhead:30018", str "tcp", some [str "v1"], some [str "echo"], 8000⟩
    7 5 3 rfl rfl (by decide) (by decide)).1

/-- C9. When resolving the target fails, or resolving succeeds and opening the
socket fails, `sendBeaconLoop` returns without any datagram sent; it is in its
send loop exactly when both steps succeed. -/
theorem beacon_abort_returns (net : UDPNet) (ticks : Nat) (target : GoString) (b : Beacon) :
    ((net.resolve target = none ∨
        ∃ raddr, net.resolve target = some raddr ∧ net.dial raddr = false) →
      (sendBeaconLoop net ticks target b).status = BeaconStatus.returned ∧
      datagrams (sendBeaconLoop net ticks target b).trace = []) ∧
    ((sendBeaconLoop net ticks target b).status = BeaconStatus.looping ↔
      ∃ raddr, net.resolve target = some raddr ∧ net.dial raddr = true) := by
  unfold sendBeaconLoop
  cases hres : net.resolve target with
  | none => simp [datagrams]
  | some raddr =>
    cases hdial : net.dial raddr <;> simp [hdial, datagrams]

/-- C9, for a target that does not resolve. -/
theorem beacon_abort_returns_witness :
    (sendBeaconLoop ⟨fun _ => none, fun _ => true, fun _ => true⟩ 4 (str "nowhere:1")
        ⟨str "h", str "a", str "tcp", some [str "v1"], some [str "echo"], 8000⟩).status
      = BeaconStatus.returned ∧
    datagrams (sendBeaconLoop ⟨fun _ => none, fun _ => true, fun _ => true⟩ 4 (str "nowhere:1")
        ⟨str "h", str "a", str "tcp", some [str "v1"], some [str "echo"], 8000⟩).trace = [] :=
  (beacon_abort_returns ⟨fun _ => none, fun _ => true, fun _ => true⟩ 4 (str "nowhere:1")
    ⟨str "h", str "a", str "tcp", some [str "v1"], some [str "echo"], 8000⟩).1 (Or.inl rfl)

end Beachhead
